import Mathlib

/-!
Shallow embedding of the todo repository layer of sriniously/tasker
(internal/repository/todo.go), together with the sort allow-list of the
API contract (packages/openapi/src/contracts/todo.ts).

Modelling conventions: opaque UUIDs and store instants are represented as
Nat; the relational store is an explicit record of table contents plus the
store clock; fallible repository operations return Except.  pgx.ErrNoRows
(zero rows collected) is represented by the RepoError.noRows constructor,
errs.NewNotFoundError by RepoError.notFound, errs.NewBadRequestError by
RepoError.badRequest, and the Go runtime panic raised by an integer
division by zero by RepoError.divideByZero.  Go query parameters page and
limit (dereferenced ints, constrained to be non-negative by the API
contract) are represented as Nat.
-/

namespace Tasker

/-- Todo status enumeration (model/todo: draft, active, completed, archived). -/
inductive Status where
  | draft
  | active
  | completed
  | archived
deriving DecidableEq

/-- Todo priority enumeration (model/todo: low, medium, high). -/
inductive Priority where
  | low
  | medium
  | high
deriving DecidableEq

/-- Free-form metadata attached to a todo: tags plus an optional color. -/
structure Metadata where
  tags : List String
  color : Option String
deriving DecidableEq

/-- A row of the todos table, as collected into the Go todo.Todo struct. -/
structure Todo where
  id : Nat
  userId : Nat
  title : String
  description : Option String
  status : Status
  priority : Priority
  dueDate : Option Nat
  completedAt : Option Nat
  parentTodoId : Option Nat
  categoryId : Option Nat
  metadata : Option Metadata
  sortOrder : Nat
  createdAt : Nat
  updatedAt : Nat
deriving DecidableEq

/-- A row of the todo_categories table. -/
structure Category where
  id : Nat
  userId : Nat
  name : String
  color : String
deriving DecidableEq

/-- A row of the todo_comments table. -/
structure Comment where
  id : Nat
  userId : Nat
  todoId : Nat
  content : String
  createdAt : Nat
deriving DecidableEq

/-- The composed read-only view assembled by GetTodoByID and GetTodos:
a todo together with its resolved category, ordered children and ordered
comments. -/
structure PopulatedTodo where
  todo : Todo
  category : Option Category
  children : List Todo
  comments : List Comment
deriving DecidableEq

/-- todo.CreateTodoPayload: title required, everything else optional. -/
structure CreateTodoPayload where
  title : String
  description : Option String := none
  priority : Option Priority := none
  dueDate : Option Nat := none
  parentTodoId : Option Nat := none
  categoryId : Option Nat := none
  metadata : Option Metadata := none
deriving DecidableEq

/-- todo.UpdateTodoPayload: the id plus a sparse set of optional fields. -/
structure UpdateTodoPayload where
  id : Nat
  title : Option String := none
  description : Option String := none
  status : Option Status := none
  priority : Option Priority := none
  dueDate : Option Nat := none
  parentTodoId : Option Nat := none
  categoryId : Option Nat := none
  metadata : Option Metadata := none
deriving DecidableEq

/-- todo.GetTodosQuery.  In the Go struct Page and Limit are pointers that
GetTodos dereferences unconditionally; they are modelled as required
fields. -/
structure GetTodosQuery where
  page : Nat
  limit : Nat
  status : Option Status := none
  priority : Option Priority := none
  categoryId : Option Nat := none
  parentTodoId : Option Nat := none
  dueFrom : Option Nat := none
  dueTo : Option Nat := none
  overdue : Option Bool := none
  completed : Option Bool := none
  search : Option String := none
  sort : Option String := none
  order : Option String := none
deriving DecidableEq

/-- model.PaginatedResponse. -/
structure PaginatedResponse (α : Type) where
  data : List α
  page : Nat
  limit : Nat
  total : Nat
  totalPages : Nat
deriving DecidableEq

/-- Errors surfaced by the repository layer (see the module docstring for
the correspondence with the Go error values). -/
inductive RepoError where
  | noRows
  | notFound (msg : String) (code : String)
  | badRequest (msg : String)
  | storeError
  | divideByZero
deriving DecidableEq

/-- Both the wrapped pgx.ErrNoRows and errs.NewNotFoundError belong to the
NotFound taxonomy of the spec. -/
def RepoError.isNotFound : RepoError → Bool
  | .noRows => true
  | .notFound _ _ => true
  | _ => false

/-- The relational store: table contents, the id sequence and the store
clock (NOW, also used for time.Now in the Go process; clock skew between
the two is not modelled). -/
structure Store where
  todos : List Todo
  categories : List Category
  comments : List Comment
  nextId : Nat
  now : Nat
deriving DecidableEq

/-! ## String-level model of the dynamically built query fragments -/

/-- The ORDER BY fragment GetTodos appends to the statement: the sort
field is concatenated verbatim after "ORDER BY t." with no validation;
DESC is appended when order is "desc", otherwise ASC; with no sort field
the default is created_at DESC. -/
def orderByFragment (sort : Option String) (order : Option String) : String :=
  match sort with
  | some f =>
    " ORDER BY t." ++ f ++ (if order == some "desc" then " DESC" else " ASC")
  | none => " ORDER BY t.created_at DESC"

/-- The search condition GetTodos appends: a fixed text that refers to the
bound parameter, independent of the search term itself. -/
def searchConditionFragment : String :=
  "(t.title ILIKE @search OR t.description ILIKE @search)"

/-- The value bound to the search parameter: the term wrapped with SQL
wildcard markers. -/
def searchArgValue (term : String) : String := "%" ++ term ++ "%"

/-- The sort allow-list of the API contract (zod enum in
packages/openapi/src/contracts/todo.ts). -/
def contractSortAllowList : List String :=
  ["created_at", "updated_at", "title", "priority", "due_date", "status"]

/-! ## Character and pattern matching utilities -/

/-- Case-insensitive character comparison (ILIKE folds case). -/
def charEqCI (c d : Char) : Bool := c.toLower == d.toLower

/-- Does f hold of some suffix of the list (the list itself included)? -/
def anySuffix (f : List Char → Bool) : List Char → Bool
  | [] => f []
  | d :: ts => f (d :: ts) || anySuffix f ts

/-- One element of a scanned LIKE pattern: the percent wildcard, the
single-character wildcard, or a literal character. -/
inductive LikeTok where
  | anySeq
  | anyOne
  | lit (c : Char)
deriving DecidableEq

/-- Scanning of a Postgres LIKE pattern with the default backslash
escape: a backslash makes the following character literal (wildcards
included), and a pattern ending in a lone backslash is an error at the
store, represented by none. -/
def parseLikePattern : List Char → Option (List LikeTok)
  | [] => some []
  | c :: ps =>
    if c == '\\' then
      match ps with
      | [] => none
      | d :: ps2 => (parseLikePattern ps2).map (fun ts => LikeTok.lit d :: ts)
    else if c == '%' then (parseLikePattern ps).map (fun ts => LikeTok.anySeq :: ts)
    else if c == '_' then (parseLikePattern ps).map (fun ts => LikeTok.anyOne :: ts)
    else (parseLikePattern ps).map (fun ts => LikeTok.lit c :: ts)

/-- Matching of a scanned LIKE pattern over an arbitrary character
comparison: anySeq matches any sequence, anyOne any single character,
and a literal token compares via eq. -/
def likeTokMatch (eq : Char → Char → Bool) : List LikeTok → List Char → Bool
  | [], t => t.isEmpty
  | LikeTok.anySeq :: ps, t => anySuffix (likeTokMatch eq ps) t
  | LikeTok.anyOne :: _, [] => false
  | LikeTok.anyOne :: ps, _ :: ts => likeTokMatch eq ps ts
  | LikeTok.lit _ :: _, [] => false
  | LikeTok.lit c :: ps, d :: ts => eq c d && likeTokMatch eq ps ts

/-- Does the first list occur at the head of the second, comparing
characters via eq? -/
def startsWithBy (eq : Char → Char → Bool) : List Char → List Char → Bool
  | [], _ => true
  | _ :: _, [] => false
  | a :: as, b :: bs => eq a b && startsWithBy eq as bs

/-- Does the first list occur contiguously anywhere inside the second,
comparing characters via eq? -/
def hasSubstrBy (eq : Char → Char → Bool) (s : List Char) : List Char → Bool
  | [] => startsWithBy eq s []
  | d :: ts => startsWithBy eq s (d :: ts) || hasSubstrBy eq s ts

/-- Postgres ILIKE: the pattern is scanned for the default backslash
escape and then matched case-insensitively.  A pattern whose scan fails
(dangling escape) makes the query error at the store; GetTodos only ever
binds wildcard-wrapped patterns, whose trailing percent prevents a
dangling escape, so every pattern it binds scans successfully and the
false returned here for a failed scan is unreachable from GetTodos. -/
def ilike (pat text : String) : Bool :=
  match parseLikePattern pat.data with
  | none => false
  | some ts => likeTokMatch charEqCI ts text.data

/-- Case-insensitive substring containment: the spec-side reading of
"contains as a case-insensitive substring". -/
def substrCI (s t : String) : Bool := hasSubstrBy charEqCI s.data t.data

/-- Exact substring containment, used to state that a value occurs in
query text. -/
def containsText (s t : String) : Bool :=
  hasSubstrBy (fun a b => a == b) s.data t.data

/-- Is the character distinct from both LIKE metacharacters and from the
escape backslash? -/
def nonWildChar (c : Char) : Bool := !(c == '%' || c == '_' || c == '\\')

/-- Is the string free of the LIKE metacharacters percent and underscore
and of the escape backslash? -/
def noWild (s : String) : Bool := s.data.all nonWildChar

/-- The condition GetTodos evaluates for a search term: title ILIKE the
wrapped term OR description ILIKE the wrapped term; a NULL description
makes its disjunct false. -/
def searchPred (term : String) (t : Todo) : Bool :=
  ilike (searchArgValue term) t.title ||
    (match t.description with
     | some d => ilike (searchArgValue term) d
     | none => false)

/-! ## The constraint set of GetTodos -/

/-- The conjunction of the WHERE conditions GetTodos builds, in source
order, evaluated on a single todos row.  SQL comparisons against a NULL
column are false. -/
def rowPred (uid : Nat) (now : Nat) (q : GetTodosQuery) (t : Todo) : Bool :=
  t.userId == uid &&
  (match q.status with | some st => t.status == st | none => true) &&
  (match q.priority with | some pr => t.priority == pr | none => true) &&
  (match q.categoryId with | some c => t.categoryId == some c | none => true) &&
  (match q.parentTodoId with
   | some pid => t.parentTodoId == some pid
   | none => t.parentTodoId == none) &&
  (match q.dueFrom with
   | some d => (match t.dueDate with | some dd => Nat.ble d dd | none => false)
   | none => true) &&
  (match q.dueTo with
   | some d => (match t.dueDate with | some dd => Nat.ble dd d | none => false)
   | none => true) &&
  (match q.overdue with
   | some true =>
     (match t.dueDate with | some dd => Nat.blt dd now | none => false) &&
       !(t.status == Status.completed)
   | _ => true) &&
  (match q.completed with
   | some true => t.status == Status.completed
   | some false => !(t.status == Status.completed)
   | none => true) &&
  (match q.search with | some s => searchPred s t | none => true)

/-! ## Sorting -/

/-- Insertion step of the insertion sort used to model ORDER BY. -/
def insertBy (le : α → α → Bool) (a : α) : List α → List α
  | [] => [a]
  | b :: bs => if le a b then a :: b :: bs else b :: insertBy le a bs

/-- Insertion sort modelling ORDER BY: produces a permutation of its
input sorted by the comparison. -/
def sortBy (le : α → α → Bool) : List α → List α
  | [] => []
  | a :: as => insertBy le a (sortBy le as)

/-- Lexicographic comparison of character lists, modelling text
collation for ORDER BY title. -/
def lexLe : List Char → List Char → Bool
  | [], _ => true
  | _ :: _, [] => false
  | a :: as, b :: bs => if a == b then lexLe as bs else Nat.blt a.toNat b.toNat

/-- Modelled from the spec: the Postgres priority enum (schema migrations
are not among the visible sources) declares low, medium, high in that
order, which is the order ORDER BY priority uses. -/
def priorityRank : Priority → Nat
  | .low => 0
  | .medium => 1
  | .high => 2

/-- Modelled from the spec: the Postgres status enum (schema migrations
are not among the visible sources) declares draft, active, completed,
archived in that order, which is the order ORDER BY status uses. -/
def statusRank : Status → Nat
  | .draft => 0
  | .active => 1
  | .completed => 2
  | .archived => 3

/-- Ascending comparison on an optional instant with NULLS LAST, the
Postgres default for ASC. -/
def optLeNullsLast : Option Nat → Option Nat → Bool
  | some a, some b => Nat.ble a b
  | some _, none => true
  | none, some _ => false
  | none, none => true

/-- The row comparison for each sort column GetTodos can be asked for.
Only the six columns admitted by the API contract are interpreted; any
other sort string yields none (the spliced statement fails at the
store). -/
def sortKeyLe (f : String) : Option (Todo → Todo → Bool) :=
  if f == "created_at" then some (fun a b => Nat.ble a.createdAt b.createdAt)
  else if f == "updated_at" then some (fun a b => Nat.ble a.updatedAt b.updatedAt)
  else if f == "title" then some (fun a b => lexLe a.title.data b.title.data)
  else if f == "priority" then
    some (fun a b => Nat.ble (priorityRank a.priority) (priorityRank b.priority))
  else if f == "due_date" then some (fun a b => optLeNullsLast a.dueDate b.dueDate)
  else if f == "status" then
    some (fun a b => Nat.ble (statusRank a.status) (statusRank b.status))
  else none

/-- The ordering GetTodos applies: the requested column ascending, or
descending when order is "desc"; with no sort field, created_at
descending.  none signals a store-level failure of the spliced ORDER BY
text. -/
def sortedRows (q : GetTodosQuery) (rows : List Todo) : Option (List Todo) :=
  match q.sort with
  | none => some (sortBy (fun a b => Nat.ble b.createdAt a.createdAt) rows)
  | some f =>
    match sortKeyLe f with
    | none => none
    | some le =>
      if q.order == some "desc" then some (sortBy (fun a b => le b a) rows)
      else some (sortBy le rows)

/-- Comparison for the children aggregation: sort_order ascending,
tie-broken by created_at ascending. -/
def childLe (a b : Todo) : Bool :=
  Nat.blt a.sortOrder b.sortOrder ||
    (a.sortOrder == b.sortOrder && Nat.ble a.createdAt b.createdAt)

/-- Comparison for the comments aggregation: created_at ascending. -/
def commentLe (a b : Comment) : Bool := Nat.ble a.createdAt b.createdAt

/-! ## The repository operations -/

/-- The aggregation both read operations perform per root row: resolve
the category (owner-scoped, degrading to none), collect and order the
direct children and the comments (owner-scoped). -/
def populateTodo (s : Store) (uid : Nat) (t : Todo) : PopulatedTodo :=
  { todo := t
    category :=
      match t.categoryId with
      | some cid => s.categories.find? (fun c => c.id == cid && c.userId == uid)
      | none => none
    children :=
      sortBy childLe
        (s.todos.filter (fun c => c.parentTodoId == some t.id && c.userId == uid))
    comments :=
      sortBy commentLe
        (s.comments.filter (fun c => c.todoId == t.id && c.userId == uid)) }

/-- Modelled from the spec: the todos table schema (migrations are not
among the visible sources) initializes status to draft for every inserted
row. -/
def insertDefaultStatus : Status := .draft

/-- Modelled from the spec: the todos table schema (migrations are not
among the visible sources) initializes the completion timestamp absent. -/
def insertDefaultCompletedAt : Option Nat := none

/-- Modelled from the spec: the update timestamp advances on every
mutation (a schema-level trigger; migrations are not among the visible
sources). -/
def touchUpdated (now : Nat) (t : Todo) : Todo := { t with updatedAt := now }

/-- CreateTodo: inserts a row built from the payload, defaulting priority
to medium in the Go code and the remaining unnamed columns per the
schema, and returns the materialized row. -/
def createTodo (s : Store) (uid : Nat) (p : CreateTodoPayload) : Todo × Store :=
  let t : Todo :=
    { id := s.nextId
      userId := uid
      title := p.title
      description := p.description
      status := insertDefaultStatus
      priority := match p.priority with | some pr => pr | none => Priority.medium
      dueDate := p.dueDate
      completedAt := insertDefaultCompletedAt
      parentTodoId := p.parentTodoId
      categoryId := p.categoryId
      metadata := p.metadata
      sortOrder := 0
      createdAt := s.now
      updatedAt := s.now }
  (t, { s with todos := s.todos ++ [t], nextId := s.nextId + 1 })

/-- The (id, owner) row lookup shared by the scoped operations. -/
def findTodo (s : Store) (uid : Nat) (todoId : Nat) : Option Todo :=
  s.todos.find? (fun t => t.id == todoId && t.userId == uid)

/-- GetTodoByID: the aggregated single-entity read, failing on zero rows
for the (id, owner) scope. -/
def getTodoByID (s : Store) (uid : Nat) (todoId : Nat) :
    Except RepoError PopulatedTodo :=
  match findTodo s uid todoId with
  | none => Except.error RepoError.noRows
  | some t => Except.ok (populateTodo s uid t)

/-- CheckTodoExists: the bare (id, owner) row read, failing on zero
rows. -/
def checkTodoExists (s : Store) (uid : Nat) (todoId : Nat) :
    Except RepoError Todo :=
  match findTodo s uid todoId with
  | none => Except.error RepoError.noRows
  | some t => Except.ok t

/-- Is the entire optional field set of the update payload absent?  This
is exactly the emptiness test of the setClauses slice UpdateTodo builds. -/
def noFieldsSet (p : UpdateTodoPayload) : Bool :=
  p.title.isNone && p.description.isNone && p.status.isNone &&
    p.priority.isNone && p.dueDate.isNone && p.parentTodoId.isNone &&
    p.categoryId.isNone && p.metadata.isNone

/-- The effect of the SET clauses UpdateTodo builds, applied to one row:
each present payload field overwrites its column; setting status to
completed also sets completed_at to the current time, setting it to any
other value clears completed_at; absent fields leave their columns
untouched. -/
def applyUpdate (now : Nat) (p : UpdateTodoPayload) (t : Todo) : Todo :=
  touchUpdated now
    { t with
      title := match p.title with | some v => v | none => t.title
      description := match p.description with | some v => some v | none => t.description
      status := match p.status with | some v => v | none => t.status
      completedAt :=
        match p.status with
        | some Status.completed => some now
        | some _ => none
        | none => t.completedAt
      priority := match p.priority with | some v => v | none => t.priority
      dueDate := match p.dueDate with | some v => some v | none => t.dueDate
      parentTodoId :=
        match p.parentTodoId with | some v => some v | none => t.parentTodoId
      categoryId := match p.categoryId with | some v => some v | none => t.categoryId
      metadata := match p.metadata with | some v => some v | none => t.metadata }

/-- UpdateTodo: rejects an entirely absent field set before touching the
store; otherwise updates the (id, owner)-scoped row and returns it,
failing on zero matched rows.  The returned store is the post-call store
(unchanged on every error path). -/
def updateTodo (s : Store) (uid : Nat) (p : UpdateTodoPayload) :
    Except RepoError Todo × Store :=
  if noFieldsSet p then (Except.error (RepoError.badRequest "no fields to update"), s)
  else
    match findTodo s uid p.id with
    | none => (Except.error RepoError.noRows, s)
    | some t =>
      (Except.ok (applyUpdate s.now p t),
       { s with
         todos :=
           s.todos.map fun r =>
             if r.id == p.id && r.userId == uid then applyUpdate s.now p r else r })

/-- DeleteTodo: hard-deletes the (id, owner)-scoped rows, failing with
the distinguishable not-found error when zero rows were affected. -/
def deleteTodo (s : Store) (uid : Nat) (todoId : Nat) :
    Except RepoError Unit × Store :=
  let remaining := s.todos.filter fun t => !(t.id == todoId && t.userId == uid)
  if remaining.length == s.todos.length then
    (Except.error (RepoError.notFound "todo not found" "TODO_NOT_FOUND"), s)
  else
    (Except.ok (), { s with todos := remaining })

/-- GetTodos: builds the constraint set, runs the count with the identical
constraints and no pagination, orders, paginates with OFFSET
(page-1)*limit and LIMIT limit, aggregates each row, and derives
totalPages as (total + limit - 1) / limit — which in Go panics with an
integer division by zero when limit is 0. -/
def getTodos (s : Store) (uid : Nat) (q : GetTodosQuery) :
    Except RepoError (PaginatedResponse PopulatedTodo) :=
  let matching := s.todos.filter (rowPred uid s.now q)
  let total := matching.length
  match sortedRows q matching with
  | none => Except.error RepoError.storeError
  | some sorted =>
    let pageRows := (sorted.drop ((q.page - 1) * q.limit)).take q.limit
    let data := pageRows.map (populateTodo s uid)
    if q.limit == 0 then Except.error RepoError.divideByZero
    else
      Except.ok
        { data := data
          page := q.page
          limit := q.limit
          total := total
          totalPages := (total + q.limit - 1) / q.limit }

/-! ## Concrete fixtures used by witnesses and counterexamples -/

/-- A minimal root todo owned by user 9. -/
def sampleTodo : Todo :=
  { id := 1, userId := 9, title := "A", description := none, status := .draft
    priority := .medium, dueDate := none, completedAt := none, parentTodoId := none
    categoryId := none, metadata := none, sortOrder := 0, createdAt := 1, updatedAt := 1 }

/-- A one-row store whose clock reads 5. -/
def sampleStore : Store :=
  { todos := [sampleTodo], categories := [], comments := [], nextId := 2, now := 5 }

/-- A todo whose title is the single letter x, with no description. -/
def wildcardTodo : Todo := { sampleTodo with title := "x" }

/-- A one-row store holding wildcardTodo. -/
def wildcardStore : Store :=
  { todos := [wildcardTodo], categories := [], comments := [], nextId := 2, now := 5 }

/-- The row sampleTodo becomes when its status is set to completed at
instant 5. -/
def completedSampleTodo : Todo :=
  { sampleTodo with status := .completed, completedAt := some 5, updatedAt := 5 }

/-- Does the row satisfy the completion-timestamp invariant: completed_at
present exactly when status is completed? -/
def completionOK (t : Todo) : Bool := (t.status == Status.completed) == t.completedAt.isSome

/-- Does every row of the store satisfy the completion-timestamp
invariant? -/
def storeCompletionOK (s : Store) : Bool := s.todos.all completionOK

end Tasker

namespace Tasker

/-! ## Helper lemmas -/

theorem mem_insertBy {le : α → α → Bool} {a x : α} {l : List α} :
    x ∈ insertBy le a l ↔ x = a ∨ x ∈ l := by
  induction l with
  | nil => simp [insertBy]
  | cons b bs ih =>
    simp only [insertBy]
    split
    · simp [List.mem_cons]
    · simp only [List.mem_cons, ih]
      tauto

theorem mem_sortBy {le : α → α → Bool} {x : α} {l : List α} :
    x ∈ sortBy le l ↔ x ∈ l := by
  induction l with
  | nil => simp [sortBy]
  | cons a as ih => simp [sortBy, mem_insertBy, ih]

theorem mem_sortedRows {q : GetTodosQuery} {rows sorted : List Todo}
    (h : sortedRows q rows = some sorted) {x : Todo} : x ∈ sorted ↔ x ∈ rows := by
  unfold sortedRows at h
  split at h
  · cases h
    exact mem_sortBy
  · split at h
    · cases h
    · split at h <;> (cases h; exact mem_sortBy)

theorem getTodos_ok_elim {s : Store} {uid : Nat} {q : GetTodosQuery}
    {r : PaginatedResponse PopulatedTodo}
    (h : getTodos s uid q = Except.ok r) :
    ∃ sorted, sortedRows q (s.todos.filter (rowPred uid s.now q)) = some sorted ∧
      r = { data := ((sorted.drop ((q.page - 1) * q.limit)).take q.limit).map
                      (populateTodo s uid)
            page := q.page
            limit := q.limit
            total := (s.todos.filter (rowPred uid s.now q)).length
            totalPages :=
              ((s.todos.filter (rowPred uid s.now q)).length + q.limit - 1) / q.limit } := by
  simp only [getTodos] at h
  cases hs : sortedRows q (s.todos.filter (rowPred uid s.now q)) with
  | none => rw [hs] at h; cases h
  | some sorted =>
    by_cases hl : (q.limit == 0) = true
    · rw [hs] at h
      simp [hl] at h
    · rw [hs] at h
      simp [hl] at h
      subst h
      exact ⟨sorted, rfl, by simp⟩

theorem getTodos_data_mem {s : Store} {uid : Nat} {q : GetTodosQuery}
    {r : PaginatedResponse PopulatedTodo}
    (h : getTodos s uid q = Except.ok r)
    {pt : PopulatedTodo} (hpt : pt ∈ r.data) :
    pt.todo ∈ s.todos ∧ rowPred uid s.now q pt.todo = true := by
  obtain ⟨sorted, hs, hr⟩ := getTodos_ok_elim h
  subst hr
  simp only [List.mem_map] at hpt
  obtain ⟨t, ht, hpe⟩ := hpt
  have ht2 : t ∈ sorted := List.mem_of_mem_drop (List.mem_of_mem_take ht)
  have ht3 : t ∈ s.todos.filter (rowPred uid s.now q) := (mem_sortedRows hs).mp ht2
  have ht4 := List.mem_filter.mp ht3
  have hte : pt.todo = t := by cases hpe; rfl
  rw [hte]
  exact ht4

theorem updateTodo_ok_elim {s : Store} {uid : Nat} {p : UpdateTodoPayload}
    {u : Todo} {s2 : Store}
    (h : updateTodo s uid p = (Except.ok u, s2)) :
    ∃ t, findTodo s uid p.id = some t ∧ u = applyUpdate s.now p t ∧
      s2 = { s with
             todos :=
               s.todos.map fun r =>
                 if r.id == p.id && r.userId == uid then applyUpdate s.now p r
                 else r } := by
  unfold updateTodo at h
  split at h
  · cases h
  · split at h
    · cases h
    · next t hf =>
      refine ⟨t, hf, ?_, ?_⟩ <;> (cases h; rfl)

/-! ## Claim C3 -/

/-- Claim C3: for every owner and every update payload whose entire
optional field set is absent, UpdateTodo fails with the validation error
"no fields to update", regardless of whether a todo with the given id
exists, and leaves the store unchanged. -/
theorem c3_empty_update_rejected (s : Store) (uid : Nat) (p : UpdateTodoPayload)
    (h : noFieldsSet p = true) :
    updateTodo s uid p = (Except.error (RepoError.badRequest "no fields to update"), s) := by
  unfold updateTodo
  simp [h]

/-- Witness for claim C3 at a concrete store and an empty payload whose
id does not exist in the store. -/
theorem c3_empty_update_rejected_witness :
    updateTodo sampleStore 9 { id := 77 } =
      (Except.error (RepoError.badRequest "no fields to update"), sampleStore) :=
  c3_empty_update_rejected sampleStore 9 { id := 77 } rfl

/-! ## Claim C9 -/

/-- Claim C9: for every create payload with only the title set, CreateTodo
returns a todo with status draft, priority medium, completion timestamp
absent, and description, due date, category and parent absent; the
returned row is the stored row, carrying the store-assigned id and
timestamps. -/
theorem c9_create_defaults (s : Store) (uid : Nat) (ti : String) :
    let res := createTodo s uid { title := ti }
    res.1.status = Status.draft ∧
    res.1.priority = Priority.medium ∧
    res.1.completedAt = none ∧
    res.1.description = none ∧
    res.1.dueDate = none ∧
    res.1.categoryId = none ∧
    res.1.parentTodoId = none ∧
    res.1.title = ti ∧
    res.1.userId = uid ∧
    res.1.id = s.nextId ∧
    res.1.createdAt = s.now ∧
    res.1.updatedAt = s.now ∧
    res.1 ∈ res.2.todos := by
  refine ⟨rfl, rfl, rfl, rfl, rfl, rfl, rfl, rfl, rfl, rfl, rfl, rfl, ?_⟩
  simp [createTodo]

/-! ## Claim C6 -/

/-- Claim C6 counterexample: with limit = 0, GetTodos does not fail fast
with a caller-contract error; both store queries execute and the
totalPages computation is an unguarded integer division by zero (a Go
runtime panic). -/
theorem c6_limit_zero_counterexample :
    getTodos sampleStore 9 { page := 1, limit := 0 } =
      Except.error RepoError.divideByZero := by
  rfl

/-- Claim C6 (amended): for every listing query with limit = 0 whose
ordering text executes, GetTodos reaches the unguarded division by zero
in the totalPages computation instead of failing fast with a contract
error. -/
theorem c6_limit_zero_divides (s : Store) (uid : Nat) (q : GetTodosQuery)
    (h0 : q.limit = 0)
    (hs : (sortedRows q (s.todos.filter (rowPred uid s.now q))).isSome = true) :
    getTodos s uid q = Except.error RepoError.divideByZero := by
  simp only [getTodos]
  cases hsr : sortedRows q (s.todos.filter (rowPred uid s.now q)) with
  | none => rw [hsr] at hs; cases hs
  | some sorted => simp [h0]

/-- Witness for the amended claim C6 at a concrete store and query. -/
theorem c6_limit_zero_divides_witness :
    getTodos wildcardStore 9 { page := 2, limit := 0 } =
      Except.error RepoError.divideByZero :=
  c6_limit_zero_divides wildcardStore 9 { page := 2, limit := 0 } rfl rfl

/-! ## Claim C1 -/

theorem startsWithBy_beq_append (s r : List Char) :
    startsWithBy (fun a b => a == b) s (s ++ r) = true := by
  induction s with
  | nil => rfl
  | cons c cs ih => simp [startsWithBy, ih]

theorem hasSubstrBy_of_startsWithBy {eq : Char → Char → Bool} {s l : List Char}
    (h : startsWithBy eq s l = true) : hasSubstrBy eq s l = true := by
  cases l with
  | nil => simpa [hasSubstrBy] using h
  | cons d ts => simp [hasSubstrBy, h]

theorem hasSubstrBy_beq_append (pre s post : List Char) :
    hasSubstrBy (fun a b => a == b) s (pre ++ (s ++ post)) = true := by
  induction pre with
  | nil => exact hasSubstrBy_of_startsWithBy (startsWithBy_beq_append s post)
  | cons c cs ih => simp [hasSubstrBy, ih]

theorem containsText_middle (pre s post : String) :
    containsText s (pre ++ s ++ post) = true := by
  unfold containsText
  have hd : (pre ++ s ++ post).data = pre.data ++ (s.data ++ post.data) := by
    simp [String.data_append]
  rw [hd]
  exact hasSubstrBy_beq_append _ _ _

/-- Claim C1 counterexample: a sort value outside the allow-list is not
rejected by GetTodos; the ORDER BY text it builds and sends to the store
contains that value verbatim. -/
theorem c1_sort_counterexample :
    ¬ ("due_date; DROP TABLE todos --" ∈ contractSortAllowList) ∧
      containsText "due_date; DROP TABLE todos --"
        (orderByFragment (some "due_date; DROP TABLE todos --") none) = true :=
  ⟨by decide, by decide⟩

/-- Claim C1 (amended): GetTodos itself performs no allow-list check on
the sort field — every explicitly given sort value, allow-listed or not,
is concatenated verbatim into the ORDER BY clause of the query text that
reaches the store; the fixed allow-list of created_at, updated_at, title,
priority, due_date and status is enforced only by the API contract
schema. -/
theorem c1_sort_spliced_into_query_text (v : String) (o : Option String) :
    containsText v (orderByFragment (some v) o) = true ∧
      contractSortAllowList =
        ["created_at", "updated_at", "title", "priority", "due_date", "status"] := by
  refine ⟨?_, rfl⟩
  unfold orderByFragment
  by_cases ho : (o == some "desc") = true
  · rw [if_pos ho]
    exact containsText_middle _ _ _
  · rw [if_neg ho]
    exact containsText_middle _ _ _

/-! ## Claim C4 -/

/-- Claim C4: for every todo owned by A and every other owner B, the
owner-scoped operations GetTodoByID, CheckTodoExists, UpdateTodo (with at
least one field set) and DeleteTodo invoked by B on that id all fail with
their not-found outcome (zero rows collected, respectively zero rows
affected) and leave the store unchanged. -/
theorem c4_cross_owner_isolation (s : Store) (A B todoId : Nat)
    (hex : ∃ t ∈ s.todos, t.id = todoId ∧ t.userId = A)
    (hall : ∀ t ∈ s.todos, t.id = todoId → t.userId = A)
    (hBA : B ≠ A) :
    getTodoByID s B todoId = Except.error RepoError.noRows ∧
    checkTodoExists s B todoId = Except.error RepoError.noRows ∧
    (∀ p : UpdateTodoPayload, p.id = todoId → noFieldsSet p = false →
      updateTodo s B p = (Except.error RepoError.noRows, s)) ∧
    deleteTodo s B todoId =
      (Except.error (RepoError.notFound "todo not found" "TODO_NOT_FOUND"), s) := by
  have hfind : findTodo s B todoId = none := by
    apply List.find?_eq_none.mpr
    intro t ht hcon
    have h1 : t.id = todoId ∧ t.userId = B := by simpa using hcon
    exact hBA (h1.2.symm.trans (hall t ht h1.1))
  refine ⟨?_, ?_, ?_, ?_⟩
  · unfold getTodoByID
    rw [hfind]
  · unfold checkTodoExists
    rw [hfind]
  · intro p hp hnf
    unfold updateTodo
    simp [hnf, hp, hfind]
  · unfold deleteTodo
    have hfilter : (s.todos.filter fun t => !(t.id == todoId && t.userId == B)) = s.todos := by
      apply List.filter_eq_self.mpr
      intro t ht
      by_cases hid : t.id = todoId
      · have hA := hall t ht hid
        simp [hid, hA, Ne.symm hBA]
      · simp [hid]
    rw [hfilter]
    simp

/-- Witness for claim C4: owner 3 cannot read, update or delete the todo
that owner 9 holds in sampleStore. -/
theorem c4_cross_owner_isolation_witness :
    getTodoByID sampleStore 3 1 = Except.error RepoError.noRows ∧
    updateTodo sampleStore 3 { id := 1, title := some "hack" } =
      (Except.error RepoError.noRows, sampleStore) ∧
    deleteTodo sampleStore 3 1 =
      (Except.error (RepoError.notFound "todo not found" "TODO_NOT_FOUND"), sampleStore) := by
  have h := c4_cross_owner_isolation sampleStore 9 3 1
    ⟨sampleTodo, by decide, by decide⟩ (by decide) (by decide)
  exact ⟨h.1, h.2.2.1 _ rfl rfl, h.2.2.2⟩

/-! ## Claim C2 -/

theorem completionOK_applyUpdate (now : Nat) (p : UpdateTodoPayload) (t : Todo)
    (h : completionOK t = true) : completionOK (applyUpdate now p t) = true := by
  cases hps : p.status with
  | none => simpa [completionOK, applyUpdate, touchUpdated, hps] using h
  | some st => cases st <;> simp [completionOK, applyUpdate, touchUpdated, hps]

/-- Claim C2: after every CreateTodo and every successful UpdateTodo the
returned todo has its completion timestamp present exactly when its
status is completed; UpdateTodo setting status to completed stamps the
current time in the same write, setting any other status clears the
timestamp in the same write, and both operations preserve the invariant
across the whole store. -/
theorem c2_completion_invariant :
    (∀ (s : Store) (uid : Nat) (p : CreateTodoPayload),
      completionOK (createTodo s uid p).1 = true ∧
      (storeCompletionOK s = true → storeCompletionOK (createTodo s uid p).2 = true)) ∧
    (∀ (s : Store) (uid : Nat) (p : UpdateTodoPayload) (u : Todo) (s2 : Store),
      updateTodo s uid p = (Except.ok u, s2) →
      (p.status = some Status.completed →
        u.status = Status.completed ∧ u.completedAt = some s.now) ∧
      (∀ st, p.status = some st → st ≠ Status.completed → u.completedAt = none) ∧
      (storeCompletionOK s = true →
        completionOK u = true ∧ storeCompletionOK s2 = true)) := by
  constructor
  · intro s uid p
    refine ⟨rfl, fun h => ?_⟩
    simp only [createTodo, storeCompletionOK] at h ⊢
    simp [List.all_append, h, completionOK, insertDefaultStatus, insertDefaultCompletedAt]
  · intro s uid p u s2 h
    obtain ⟨t, hf, hu, hs2⟩ := updateTodo_ok_elim h
    subst hu
    refine ⟨?_, ?_, ?_⟩
    · intro hps
      constructor <;> simp [applyUpdate, touchUpdated, hps]
    · intro st hst hne
      cases st with
      | completed => exact absurd rfl hne
      | draft => simp [applyUpdate, touchUpdated, hst]
      | active => simp [applyUpdate, touchUpdated, hst]
      | archived => simp [applyUpdate, touchUpdated, hst]
    · intro hinv
      have htmem : t ∈ s.todos := List.mem_of_find?_eq_some hf
      have htok : completionOK t = true := by
        have := (List.all_eq_true.mp hinv) t htmem
        simpa using this
      refine ⟨completionOK_applyUpdate _ _ _ htok, ?_⟩
      subst hs2
      simp only [storeCompletionOK, List.all_eq_true]
      intro x hx
      simp only [List.mem_map] at hx
      obtain ⟨r, hr, hxr⟩ := hx
      have hrok : completionOK r = true := by
        have := (List.all_eq_true.mp hinv) r hr
        simpa using this
      subst hxr
      by_cases hc : (r.id == p.id && r.userId == uid) = true
      · simp [hc, completionOK_applyUpdate _ _ _ hrok]
      · simp [hc, hrok]

/-- Witness for claim C2: completing the sample todo stamps completed_at
with the store clock and preserves the invariant. -/
theorem c2_completion_invariant_witness :
    completedSampleTodo.completedAt = some 5 ∧ completionOK completedSampleTodo = true := by
  have h := c2_completion_invariant.2 sampleStore 9
    { id := 1, status := some Status.completed }
    completedSampleTodo { sampleStore with todos := [completedSampleTodo] } (by rfl)
  exact ⟨(h.1 rfl).2, (h.2.2 (by rfl)).1⟩

/-! ## Claim C5 -/

/-- Claim C5: for page at least 1 and limit at least 1, GetTodos counts
the total over the identical constraint set without pagination, slices
the ordered rows at offset (page-1)*limit with the given limit, and
returns a totalPages that is exactly the ceiling of total / limit
(characterized by total ≤ limit*totalPages < total + limit). -/
theorem c5_pagination (s : Store) (uid : Nat) (q : GetTodosQuery)
    (r : PaginatedResponse PopulatedTodo)
    (hp : 1 ≤ q.page) (hl : 1 ≤ q.limit)
    (h : getTodos s uid q = Except.ok r) :
    r.total = (s.todos.filter (rowPred uid s.now q)).length ∧
    r.data =
      ((((sortedRows q (s.todos.filter (rowPred uid s.now q))).getD []).drop
          ((q.page - 1) * q.limit)).take q.limit).map (populateTodo s uid) ∧
    r.total ≤ q.limit * r.totalPages ∧
    q.limit * r.totalPages < r.total + q.limit := by
  obtain ⟨sorted, hs, hr⟩ := getTodos_ok_elim h
  subst hr
  refine ⟨rfl, ?_, ?_, ?_⟩
  · dsimp only
    simp [hs]
  all_goals
  · dsimp only
    have hdm := Nat.div_add_mod
      ((s.todos.filter (rowPred uid s.now q)).length + q.limit - 1) q.limit
    have hmod : ((s.todos.filter (rowPred uid s.now q)).length + q.limit - 1) % q.limit
        < q.limit := Nat.mod_lt _ (by omega)
    omega

/-- Witness for claim C5 at a one-row store with page 1 and limit 2. -/
theorem c5_pagination_witness :
    (1 : Nat) =
      (sampleStore.todos.filter (rowPred 9 5 { page := 1, limit := 2 })).length ∧
    [populateTodo sampleStore 9 sampleTodo] =
      ((((sortedRows { page := 1, limit := 2 }
            (sampleStore.todos.filter (rowPred 9 5 { page := 1, limit := 2 }))).getD
          []).drop 0).take 2).map (populateTodo sampleStore 9) ∧
    (1 : Nat) ≤ 2 * 1 ∧ 2 * 1 < 1 + 2 :=
  c5_pagination sampleStore 9 { page := 1, limit := 2 }
    { data := [populateTodo sampleStore 9 sampleTodo], page := 1, limit := 2
      total := 1, totalPages := 1 }
    (by decide) (by decide) (by rfl)

/-! ## Claim C8 -/

/-- Claim C8: with no explicit parent filter GetTodos returns only root
todos (absent parent reference); with an explicit parent id it returns
only todos whose parent reference equals that id. -/
theorem c8_parent_filter (s : Store) (uid : Nat) (q : GetTodosQuery)
    (r : PaginatedResponse PopulatedTodo) (h : getTodos s uid q = Except.ok r) :
    (q.parentTodoId = none → ∀ pt ∈ r.data, pt.todo.parentTodoId = none) ∧
    (∀ pid, q.parentTodoId = some pid → ∀ pt ∈ r.data, pt.todo.parentTodoId = some pid) := by
  constructor
  · intro hq pt hpt
    have hrp := (getTodos_data_mem h hpt).2
    simp [rowPred, hq] at hrp
    exact hrp.1.1.1.1.1.2
  · intro pid hq pt hpt
    have hrp := (getTodos_data_mem h hpt).2
    simp [rowPred, hq] at hrp
    exact hrp.1.1.1.1.1.2

/-- Witness for claim C8: the default listing over sampleStore returns a
root todo. -/
theorem c8_parent_filter_witness :
    (populateTodo sampleStore 9 sampleTodo).todo.parentTodoId = none :=
  (c8_parent_filter sampleStore 9 { page := 1, limit := 20 }
      { data := [populateTodo sampleStore 9 sampleTodo], page := 1, limit := 20
        total := 1, totalPages := 1 }
      (by rfl)).1 rfl (populateTodo sampleStore 9 sampleTodo) (by simp)

/-! ## Claim C10 -/

/-- Claim C10: every stored field whose payload field is absent keeps its
previous value under a successful UpdateTodo, with the completion
timestamp changing only as a derived effect of a status change; id,
owner, creation timestamp and sort order are untouched; and no optional
field can be cleared to absent through UpdateTodo. -/
theorem c10_update_frame (s : Store) (uid : Nat) (p : UpdateTodoPayload)
    (u : Todo) (s2 : Store) (t : Todo)
    (h : updateTodo s uid p = (Except.ok u, s2))
    (hf : findTodo s uid p.id = some t) :
    (p.title = none → u.title = t.title) ∧
    (p.description = none → u.description = t.description) ∧
    (p.status = none → u.status = t.status ∧ u.completedAt = t.completedAt) ∧
    (p.priority = none → u.priority = t.priority) ∧
    (p.dueDate = none → u.dueDate = t.dueDate) ∧
    (p.parentTodoId = none → u.parentTodoId = t.parentTodoId) ∧
    (p.categoryId = none → u.categoryId = t.categoryId) ∧
    (p.metadata = none → u.metadata = t.metadata) ∧
    u.id = t.id ∧ u.userId = t.userId ∧ u.createdAt = t.createdAt ∧
    u.sortOrder = t.sortOrder ∧
    (t.description.isSome = true → u.description.isSome = true) ∧
    (t.dueDate.isSome = true → u.dueDate.isSome = true) ∧
    (t.parentTodoId.isSome = true → u.parentTodoId.isSome = true) ∧
    (t.categoryId.isSome = true → u.categoryId.isSome = true) ∧
    (t.metadata.isSome = true → u.metadata.isSome = true) := by
  obtain ⟨t2, hf2, hu, _⟩ := updateTodo_ok_elim h
  rw [hf] at hf2
  cases hf2
  subst hu
  refine ⟨fun hx => by simp [applyUpdate, touchUpdated, hx],
    fun hx => by simp [applyUpdate, touchUpdated, hx],
    fun hx => by simp [applyUpdate, touchUpdated, hx],
    fun hx => by simp [applyUpdate, touchUpdated, hx],
    fun hx => by simp [applyUpdate, touchUpdated, hx],
    fun hx => by simp [applyUpdate, touchUpdated, hx],
    fun hx => by simp [applyUpdate, touchUpdated, hx],
    fun hx => by simp [applyUpdate, touchUpdated, hx],
    by simp [applyUpdate, touchUpdated],
    by simp [applyUpdate, touchUpdated],
    by simp [applyUpdate, touchUpdated],
    by simp [applyUpdate, touchUpdated],
    ?_, ?_, ?_, ?_, ?_⟩
  · intro hx
    cases hpx : p.description with
    | some v => simp [applyUpdate, touchUpdated, hpx]
    | none => simpa [applyUpdate, touchUpdated, hpx] using hx
  · intro hx
    cases hpx : p.dueDate with
    | some v => simp [applyUpdate, touchUpdated, hpx]
    | none => simpa [applyUpdate, touchUpdated, hpx] using hx
  · intro hx
    cases hpx : p.parentTodoId with
    | some v => simp [applyUpdate, touchUpdated, hpx]
    | none => simpa [applyUpdate, touchUpdated, hpx] using hx
  · intro hx
    cases hpx : p.categoryId with
    | some v => simp [applyUpdate, touchUpdated, hpx]
    | none => simpa [applyUpdate, touchUpdated, hpx] using hx
  · intro hx
    cases hpx : p.metadata with
    | some v => simp [applyUpdate, touchUpdated, hpx]
    | none => simpa [applyUpdate, touchUpdated, hpx] using hx

/-- Witness for claim C10: a title-only update leaves description and
status untouched. -/
theorem c10_update_frame_witness :
    ({ sampleTodo with title := "B", updatedAt := 5 } : Todo).description =
      sampleTodo.description ∧
    ({ sampleTodo with title := "B", updatedAt := 5 } : Todo).status = sampleTodo.status := by
  have h := c10_update_frame sampleStore 9 { id := 1, title := some "B" }
    { sampleTodo with title := "B", updatedAt := 5 }
    { sampleStore with todos := [{ sampleTodo with title := "B", updatedAt := 5 }] }
    sampleTodo (by rfl) (by rfl)
  exact ⟨h.2.1 rfl, (h.2.2.1 rfl).1⟩

/-! ## Claim C7 -/

theorem anySuffix_congr (f g : List Char → Bool) (h : ∀ x, f x = g x)
    (t : List Char) : anySuffix f t = anySuffix g t := by
  induction t with
  | nil => simp [anySuffix, h]
  | cons d ts ih => simp [anySuffix, h, ih]

theorem likeTokMatch_pct (eq : Char → Char → Bool) (ps : List LikeTok) (t : List Char) :
    likeTokMatch eq (LikeTok.anySeq :: ps) t = anySuffix (likeTokMatch eq ps) t := rfl

theorem likeTokMatch_pct_all (eq : Char → Char → Bool) (t : List Char) :
    likeTokMatch eq [LikeTok.anySeq] t = true := by
  induction t with
  | nil => rfl
  | cons d ts ih =>
    rw [likeTokMatch_pct] at ih ⊢
    simp [anySuffix, ih]

theorem likeTokMatch_lit (eq : Char → Char → Bool) (s t : List Char) :
    likeTokMatch eq (s.map LikeTok.lit ++ [LikeTok.anySeq]) t = startsWithBy eq s t := by
  induction s generalizing t with
  | nil => simp [startsWithBy, likeTokMatch_pct_all]
  | cons c cs ih =>
    cases t with
    | nil => simp [likeTokMatch, startsWithBy]
    | cons d ts => simp [likeTokMatch, startsWithBy, ih]

theorem hasSubstrBy_eq_anySuffix (eq : Char → Char → Bool) (s t : List Char) :
    hasSubstrBy eq s t = anySuffix (startsWithBy eq s) t := by
  induction t with
  | nil => rfl
  | cons d ts ih => simp [hasSubstrBy, anySuffix, ih]

theorem likeTokMatch_wrap (eq : Char → Char → Bool) (s t : List Char) :
    likeTokMatch eq (LikeTok.anySeq :: (s.map LikeTok.lit ++ [LikeTok.anySeq])) t =
      hasSubstrBy eq s t := by
  rw [likeTokMatch_pct, hasSubstrBy_eq_anySuffix]
  exact anySuffix_congr _ _ (fun x => likeTokMatch_lit eq s x) t

theorem parseLikePattern_lit_append (s : List Char) (hs : s.all nonWildChar = true)
    (rest : List Char) :
    parseLikePattern (s ++ rest) =
      (parseLikePattern rest).map (fun ts => s.map LikeTok.lit ++ ts) := by
  induction s with
  | nil => cases h : parseLikePattern rest <;> simp [h]
  | cons c cs ih =>
    have hmem := (List.all_eq_true.mp hs) c (by simp)
    have hc : (¬c = '%' ∧ ¬c = '_') ∧ ¬c = '\\' := by simpa [nonWildChar] using hmem
    have hb1 : (c == '\\') = false := beq_eq_false_iff_ne.mpr hc.2
    have hb2 : (c == '%') = false := beq_eq_false_iff_ne.mpr hc.1.1
    have hb3 : (c == '_') = false := beq_eq_false_iff_ne.mpr hc.1.2
    have hcs : cs.all nonWildChar = true := by
      apply List.all_eq_true.mpr
      intro x hx
      exact (List.all_eq_true.mp hs) x (by simp [hx])
    have hstep : parseLikePattern (c :: (cs ++ rest)) =
        (parseLikePattern (cs ++ rest)).map (fun ts => LikeTok.lit c :: ts) := by
      rw [parseLikePattern.eq_def]
      simp [hb1, hb2, hb3]
    rw [List.cons_append, hstep, ih hcs, Option.map_map]
    cases parseLikePattern rest <;> rfl

theorem parse_append_pct : ∀ l : List Char, (parseLikePattern (l ++ ['%'])).isSome = true
  | [] => rfl
  | c :: ps => by
    rw [List.cons_append]
    by_cases h1 : (c == '\\') = true
    · cases ps with
      | nil =>
        have hc : c = '\\' := by simpa using h1
        subst hc
        rfl
      | cons d ps2 =>
        have h := parse_append_pct ps2
        rw [parseLikePattern.eq_def]
        simp [h1, h]
    · by_cases h2 : (c == '%') = true
      · have h := parse_append_pct ps
        rw [parseLikePattern.eq_def]
        simp [h1, h2, h]
      · by_cases h3 : (c == '_') = true
        · have h := parse_append_pct ps
          rw [parseLikePattern.eq_def]
          simp [h1, h2, h3, h]
        · have h := parse_append_pct ps
          rw [parseLikePattern.eq_def]
          simp [h1, h2, h3, h]

theorem parse_searchArgValue_isSome (term : String) :
    (parseLikePattern (searchArgValue term).data).isSome = true := by
  have hd : (searchArgValue term).data = ('%' :: term.data) ++ ['%'] := by
    simp [searchArgValue, String.data_append]
  rw [hd]
  exact parse_append_pct ('%' :: term.data)

theorem ilike_wrap_eq_substrCI (term t : String) (h : noWild term = true) :
    ilike (searchArgValue term) t = substrCI term t := by
  unfold ilike substrCI searchArgValue
  have hd : ("%" ++ term ++ "%").data = '%' :: (term.data ++ ['%']) := by
    simp [String.data_append]
  rw [hd]
  have hstep : parseLikePattern ('%' :: (term.data ++ ['%'])) =
      (parseLikePattern (term.data ++ ['%'])).map (fun ts => LikeTok.anySeq :: ts) := by
    rw [parseLikePattern.eq_def]
    simp
  have hp : parseLikePattern ('%' :: (term.data ++ ['%'])) =
      some (LikeTok.anySeq :: (term.data.map LikeTok.lit ++ [LikeTok.anySeq])) := by
    rw [hstep, parseLikePattern_lit_append term.data h ['%']]
    rfl
  rw [hp]
  exact likeTokMatch_wrap charEqCI term.data t.data

/-- Claim C7 counterexample: searching for the underscore returns the
todo titled x with no description, although neither its title nor its
description contains the underscore as a substring — the LIKE
metacharacter kept its wildcard meaning inside the bound pattern. -/
theorem c7_search_counterexample :
    getTodos wildcardStore 9 { page := 1, limit := 20, search := some "_" } =
      Except.ok
        { data := [populateTodo wildcardStore 9 wildcardTodo], page := 1, limit := 20
          total := 1, totalPages := 1 } ∧
    substrCI "_" wildcardTodo.title = false ∧
    wildcardTodo.description = none :=
  ⟨rfl, rfl, rfl⟩

/-- Claim C7 (amended): every todo GetTodos returns for a search term
matches the term against title or description under case-insensitive
LIKE semantics (with the default backslash escape) of the
wildcard-wrapped bound pattern; the bound value is the term wrapped with
percent markers while the condition text is fixed; every wrapped pattern
scans successfully, so no term makes the pattern itself error at the
store; and for terms free of the LIKE metacharacters and of the escape
backslash the match coincides with case-insensitive substring
containment. -/
theorem c7_search_semantics :
    (∀ (s : Store) (uid : Nat) (q : GetTodosQuery) (term : String)
        (r : PaginatedResponse PopulatedTodo),
      q.search = some term → getTodos s uid q = Except.ok r →
      ∀ pt ∈ r.data, searchPred term pt.todo = true) ∧
    (∀ term : String, searchArgValue term = "%" ++ term ++ "%") ∧
    searchConditionFragment = "(t.title ILIKE @search OR t.description ILIKE @search)" ∧
    (∀ term : String, (parseLikePattern (searchArgValue term).data).isSome = true) ∧
    (∀ (term : String) (t : Todo), noWild term = true →
      searchPred term t =
        (substrCI term t.title ||
          (match t.description with | some d => substrCI term d | none => false))) := by
  refine ⟨?_, fun _ => rfl, rfl, parse_searchArgValue_isSome, ?_⟩
  · intro s uid q term r hq h pt hpt
    have hrp := (getTodos_data_mem h hpt).2
    simp [rowPred, hq] at hrp
    exact hrp.2
  · intro term t h
    unfold searchPred
    rw [ilike_wrap_eq_substrCI term t.title h]
    cases hd : t.description with
    | some d => simp [ilike_wrap_eq_substrCI term d h]
    | none => rfl

/-- Witness for the amended claim C7: the search term a matches the
sample todo titled A, its wrapped pattern scans successfully, and for
this metacharacter- and escape-free term the LIKE match agrees with
case-insensitive containment. -/
theorem c7_search_semantics_witness :
    searchPred "a" sampleTodo = true ∧
    (parseLikePattern (searchArgValue "a").data).isSome = true ∧
    searchPred "a" sampleTodo = (substrCI "a" "A" || false) := by
  refine ⟨?_, ?_, ?_⟩
  · exact c7_search_semantics.1 sampleStore 9 { page := 1, limit := 20, search := some "a" }
      "a"
      { data := [populateTodo sampleStore 9 sampleTodo], page := 1, limit := 20
        total := 1, totalPages := 1 }
      rfl rfl (populateTodo sampleStore 9 sampleTodo) (by simp)
  · exact c7_search_semantics.2.2.2.1 "a"
  · exact c7_search_semantics.2.2.2.2 "a" sampleTodo rfl

end Tasker
